import Mathlib

/-!
Shallow embedding of the ImpactFlow dashboard front-end and proofs about it.

The embedding translates, from the TypeScript source:
  * the router-based `App` (src/unnamed/part_000) and the router-free `App`
    (src/App.tsx): session-gated routing;
  * the `FundBridge` grant filter, `handleSaveGrant` and the filter-state
    updates (src/components/DashboardLayout.tsx, second module);
  * `fetchDashboardData` of src/components/Dashboard.tsx: summary counts and
    the last-7-days chart aggregation;
  * `handleSubmit` of src/components/auth/SignupForm.tsx;
  * the full list of hosted-table operations the application issues.
-/

namespace ImpactFlow

/-- A rendered child of the dashboard layout: the `/dashboard` route wraps
`Dashboard`, the `/fundbridge` route wraps `FundBridge`, and the router-free
`App` renders `DashboardLayout` with no child. -/
inductive Child
  | dashboardChild
  | fundbridgeChild
  | emptyChild
deriving DecidableEq, Repr

/-- What a route element renders: the authenticated `DashboardLayout` shell
around a child, the `AuthPage`, a `Navigate` redirect, the loading screen,
or nothing (no route matched). -/
inductive Rendered
  | layout (c : Child)
  | authPage
  | navigate (dest : String)
  | loadingScreen
  | noMatch
deriving DecidableEq, Repr

/-- Embedding of the router-based `App` (src/unnamed/part_000, lines 36-86):
while `loading` it returns the loading screen; afterwards each route's
element is chosen from the session user exactly as in the JSX. The session
user is `Option String` (the user id); `none` is an absent session. -/
def routerApp (loading : Bool) (user : Option String) (path : String) : Rendered :=
  if loading then .loadingScreen
  else if path = "/auth" then
    match user with
    | some _ => .navigate "/dashboard"
    | none => .authPage
  else if path = "/dashboard" then
    match user with
    | some _ => .layout .dashboardChild
    | none => .navigate "/auth"
  else if path = "/fundbridge" then
    match user with
    | some _ => .layout .fundbridgeChild
    | none => .navigate "/auth"
  else if path = "/" then
    .navigate (match user with | some _ => "/dashboard" | none => "/auth")
  else .noMatch

/-- Embedding of the router-free `App` (src/App.tsx, lines 37-57): the loading
screen while loading, then `DashboardLayout` when a user session exists and
`AuthPage` otherwise. -/
def routerFreeApp (loading : Bool) (user : Option String) : Rendered :=
  if loading then .loadingScreen
  else
    match user with
    | some _ => .layout .emptyChild
    | none => .authPage

/-- Follow up to `fuel` `Navigate` redirects of the (post-loading) router-based
`App`, starting from `path`, and return the first non-redirect element. -/
def resolveFrom (u : Option String) : Nat → String → Rendered
  | 0, path => routerApp false u path
  | n + 1, path =>
    match routerApp false u path with
    | .navigate p => resolveFrom u n p
    | r => r

/-- True exactly when the element is the authenticated dashboard layout. -/
def showsDashboardLayout : Rendered → Bool
  | .layout _ => true
  | _ => false

/-- True exactly when the element is the auth page. -/
def showsAuthPage : Rendered → Bool
  | .authPage => true
  | _ => false

/-- C1. Route gating on session presence: `/dashboard` and `/fundbridge`
render the authenticated dashboard layout exactly when a user session is
present and redirect to `/auth` when it is not; `/auth` redirects to
`/dashboard` exactly when a session is present and shows the auth page
otherwise; `/` redirects to `/dashboard` when a session is present and to
`/auth` otherwise. -/
theorem route_gating_on_session (u : Option String) :
    (routerApp false u "/dashboard" = .layout .dashboardChild ↔ u.isSome = true) ∧
    (routerApp false u "/dashboard" = .navigate "/auth" ↔ u.isSome = false) ∧
    (routerApp false u "/fundbridge" = .layout .fundbridgeChild ↔ u.isSome = true) ∧
    (routerApp false u "/fundbridge" = .navigate "/auth" ↔ u.isSome = false) ∧
    (routerApp false u "/auth" = .navigate "/dashboard" ↔ u.isSome = true) ∧
    (routerApp false u "/auth" = .authPage ↔ u.isSome = false) ∧
    (u.isSome = true → routerApp false u "/" = .navigate "/dashboard") ∧
    (u.isSome = false → routerApp false u "/" = .navigate "/auth") := by
  cases u <;> simp [routerApp]

/-- Witness for C1 at a present and at an absent session. -/
theorem route_gating_on_session_witness :
    routerApp false (some "uid-1") "/" = Rendered.navigate "/dashboard" ∧
    routerApp false none "/" = Rendered.navigate "/auth" :=
  ⟨(route_gating_on_session (some "uid-1")).2.2.2.2.2.2.1 (by decide),
   (route_gating_on_session none).2.2.2.2.2.2.2 (by decide)⟩

/-- C5. Gating equivalence of the two `App` versions: while loading both
render only the loading screen; once loading completes, the router-based
`App` at path `/` (following its redirects) and the router-free `App` agree:
each shows the authenticated dashboard layout exactly when a user session
exists and the auth page exactly when it does not. -/
theorem app_versions_gating_equiv (u : Option String) (path : String) :
    routerApp true u path = .loadingScreen ∧
    routerFreeApp true u = .loadingScreen ∧
    showsDashboardLayout (resolveFrom u 2 "/") = u.isSome ∧
    showsAuthPage (resolveFrom u 2 "/") = !u.isSome ∧
    showsDashboardLayout (routerFreeApp false u) = u.isSome ∧
    showsAuthPage (routerFreeApp false u) = !u.isSome := by
  cases u <;>
    simp [routerApp, routerFreeApp, resolveFrom, showsDashboardLayout, showsAuthPage]

/-- A grant row as fetched by `FundBridge` (interface `Grant`,
src/components/DashboardLayout.tsx lines 238-251). -/
structure Grant where
  id : String
  grant_name : String
  deadline : String
  eligibility : String
  sector : String
  region : String
  org_size : String
  youth_led : Bool
  amount : Int
  description : String
  status : String
deriving DecidableEq, Repr

/-- The `FundBridge` filter state (interface `Filters`, lines 253-259):
three select strings (empty means no restriction), an optional youth-led
flag (`none` is the JS `null`), and a search string. -/
structure Filters where
  sector : String
  region : String
  org_size : String
  youth_led : Option Bool
  search : String
deriving DecidableEq, Repr

/-- Whether `pre` is a prefix of `l`, character by character. -/
def charsHavePre : List Char → List Char → Bool
  | [], _ => true
  | _ :: _, [] => false
  | a :: as, b :: bs => a == b && charsHavePre as bs

/-- Whether `needle` occurs as a contiguous run inside `hay`: the JS
`String.prototype.includes`. -/
def charsContain (needle : List Char) : List Char → Bool
  | [] => needle.isEmpty
  | b :: bs => charsHavePre needle (b :: bs) || charsContain needle bs

/-- Case-insensitive substring test, as the source writes it:
`hay.toLowerCase().includes(needle.toLowerCase())`. -/
def lowerIncludes (hay needle : String) : Bool :=
  charsContain needle.toLower.toList hay.toLower.toList

/-- The filter predicate of `FundBridge` (lines 332-342): each select
matches when the filter is empty (JS falsy) or equal to the grant's field,
the youth-led filter matches when `null` or equal to the grant's flag, and
the search matches when empty or a case-insensitive substring of the name,
description or eligibility. -/
def matchesFilters (f : Filters) (g : Grant) : Bool :=
  (decide (f.sector = "") || decide (g.sector = f.sector)) &&
  (decide (f.region = "") || decide (g.region = f.region)) &&
  (decide (f.org_size = "") || decide (g.org_size = f.org_size)) &&
  (decide (f.youth_led = none) || decide (f.youth_led = some g.youth_led)) &&
  (decide (f.search = "") || lowerIncludes g.grant_name f.search ||
    lowerIncludes g.description f.search || lowerIncludes g.eligibility f.search)

/-- The filtered grant list (line 332, `grants.filter(...)`, stored in
`filteredGrants` at line 345). -/
def filteredGrants (grants : List Grant) (f : Filters) : List Grant :=
  grants.filter (fun g => matchesFilters f g)

/-- The five criteria of claim C2, written as the claim states them. -/
def SatisfiesAllCriteria (f : Filters) (g : Grant) : Prop :=
  (f.sector = "" ∨ g.sector = f.sector) ∧
  (f.region = "" ∨ g.region = f.region) ∧
  (f.org_size = "" ∨ g.org_size = f.org_size) ∧
  (f.youth_led = none ∨ f.youth_led = some g.youth_led) ∧
  (f.search = "" ∨ lowerIncludes g.grant_name f.search = true ∨
    lowerIncludes g.description f.search = true ∨
    lowerIncludes g.eligibility f.search = true)

/-- The boolean filter of the source decides exactly the five criteria of
the claim. -/
theorem matchesFilters_iff (f : Filters) (g : Grant) :
    matchesFilters f g = true ↔ SatisfiesAllCriteria f g := by
  simp [matchesFilters, SatisfiesAllCriteria, Bool.and_eq_true, Bool.or_eq_true,
    decide_eq_true_eq, and_assoc, or_assoc]

/-- C2. FundBridge filter correctness: the filtered list contains exactly
the grants of the input list satisfying all five criteria, and it is a
sublist of the input, hence preserves the relative order. -/
theorem fundbridge_filter_correct (grants : List Grant) (f : Filters) :
    (∀ g, g ∈ filteredGrants grants f ↔ g ∈ grants ∧ SatisfiesAllCriteria f g) ∧
    List.Sublist (filteredGrants grants f) grants := by
  constructor
  · intro g
    rw [filteredGrants, List.mem_filter, matchesFilters_iff]
  · exact List.filter_sublist grants

/-- One user-interface event that updates the `FundBridge` filter state:
the search input change (line 494), the three select changes (lines 503,
518, 533), the youth-led switch (lines 549-554, mapping the checked flag
to `true` or `null`), and the clear-filters button (lines 435-443). -/
inductive FilterAction
  | setSearch (s : String)
  | setSector (s : String)
  | setRegion (s : String)
  | setOrgSize (s : String)
  | toggleYouthLed (checked : Bool)
  | clearAll
deriving DecidableEq, Repr

/-- The initial filter state (lines 269-275), also set by `clearFilters`. -/
def initialFilters : Filters :=
  ⟨"", "", "", none, ""⟩

/-- One step of the filter state, as the corresponding `setFilters` call
writes it. -/
def stepFilters (f : Filters) : FilterAction → Filters
  | .setSearch s => ⟨f.sector, f.region, f.org_size, f.youth_led, s⟩
  | .setSector s => ⟨s, f.region, f.org_size, f.youth_led, f.search⟩
  | .setRegion s => ⟨f.sector, s, f.org_size, f.youth_led, f.search⟩
  | .setOrgSize s => ⟨f.sector, f.region, s, f.youth_led, f.search⟩
  | .toggleYouthLed c => ⟨f.sector, f.region, f.org_size, if c then some true else none, f.search⟩
  | .clearAll => initialFilters

/-- The filter state reached from the initial state by a sequence of
user-interface events. -/
def runFilters (acts : List FilterAction) : Filters :=
  acts.foldl stepFilters initialFilters

/-- The youth-led field is `none` or `some true` after any single step from
a state where it already is. -/
theorem stepFilters_youthLed (f : Filters) (a : FilterAction)
    (h : f.youth_led = none ∨ f.youth_led = some true) :
    (stepFilters f a).youth_led = none ∨ (stepFilters f a).youth_led = some true := by
  cases a with
  | toggleYouthLed c => cases c <;> simp [stepFilters]
  | clearAll => simp [stepFilters, initialFilters]
  | setSearch s => exact h
  | setSector s => exact h
  | setRegion s => exact h
  | setOrgSize s => exact h

/-- The invariant holds of every fold over filter actions from an invariant
state. -/
theorem foldl_stepFilters_youthLed (acts : List FilterAction) :
    ∀ f : Filters, (f.youth_led = none ∨ f.youth_led = some true) →
      ((acts.foldl stepFilters f).youth_led = none ∨
        (acts.foldl stepFilters f).youth_led = some true) := by
  induction acts with
  | nil => intro f h; exact h
  | cons a rest ih =>
      intro f h
      exact ih (stepFilters f a) (stepFilters_youthLed f a h)

/-- C10. Youth-led filter invariant: in every reachable filter state the
youth-led field is `none` or `some true`, never `some false`; consequently
when the field restricts at all, every grant passing the filter is
youth-led. -/
theorem youth_led_filter_invariant (acts : List FilterAction) :
    ((runFilters acts).youth_led = none ∨ (runFilters acts).youth_led = some true) ∧
    (runFilters acts).youth_led ≠ some false ∧
    (∀ g : Grant, (runFilters acts).youth_led ≠ none →
      matchesFilters (runFilters acts) g = true → g.youth_led = true) := by
  have hinv : (runFilters acts).youth_led = none ∨ (runFilters acts).youth_led = some true :=
    foldl_stepFilters_youthLed acts initialFilters (Or.inl rfl)
  refine ⟨hinv, ?_, ?_⟩
  · rcases hinv with h | h <;> simp [runFilters] at h ⊢ <;> simp [h]
  · intro g hne hm
    rcases hinv with h | h
    · exact absurd h hne
    · rcases (matchesFilters_iff _ g).mp hm with ⟨-, -, -, hy, -⟩
      rcases hy with hy | hy
      · exact absurd hy hne
      · rw [h] at hy
        exact (Option.some_inj.mp hy.symm)

/-- Witness for C10: after toggling the youth-led switch on, a youth-led
grant passing the filter indeed has `youth_led = true`. -/
theorem youth_led_filter_invariant_witness :
    (⟨"g1", "Grant One", "2025-01-01", "open to all", "Health", "Global",
      "Small", true, 1000, "a grant", "open"⟩ : Grant).youth_led = true :=
  (youth_led_filter_invariant [FilterAction.toggleYouthLed true]).2.2
    ⟨"g1", "Grant One", "2025-01-01", "open to all", "Health", "Global",
      "Small", true, 1000, "a grant", "open"⟩
    (by decide) (by decide)

/-- A row of the `proposals` table, with the fields the dashboard queries
use. -/
structure ProposalRow where
  user_id : String
  created_at : String
deriving DecidableEq, Repr

/-- A row of the `grants` table, with the field the count query filters
on. -/
structure GrantRow where
  user_id : String
deriving DecidableEq, Repr

/-- A row of the `donor_reports` table, with the fields the count query
filters on. -/
structure ReportRow where
  user_id : String
  status : String
deriving DecidableEq, Repr

/-- The three tables the dashboard statistics read. -/
structure Database where
  proposals : List ProposalRow
  grants : List GrantRow
  donor_reports : List ReportRow
deriving Repr

/-- The `DashboardStats` state of src/components/Dashboard.tsx, lines
21-25. -/
structure DashboardStats where
  proposalsSubmitted : Nat
  grantsFound : Nat
  donorReportsSent : Nat
deriving DecidableEq, Repr

/-- The initial statistics state (lines 33-37): all three numbers 0. -/
def initialStats : DashboardStats :=
  ⟨0, 0, 0⟩

/-- The three `count` fields of the backend responses; `none` is a missing
count. -/
structure CountResponses where
  proposalsCount : Option Nat
  grantsCount : Option Nat
  reportsCount : Option Nat
deriving DecidableEq, Repr

/-- What the backend's exact-count queries of lines 47-51 return for a
given user id: the row counts of `proposals` and `grants` filtered by
`user_id`, and of `donor_reports` filtered by `user_id` and status
`sent`. -/
def exactCounts (db : Database) (uid : String) : CountResponses :=
  ⟨some ((db.proposals.filter (fun p => p.user_id == uid)).length),
   some ((db.grants.filter (fun g => g.user_id == uid)).length),
   some ((db.donor_reports.filter
     (fun r => r.user_id == uid && r.status == "sent")).length)⟩

/-- The `setStats` call of lines 53-57: each statistic is the response
count with JS `|| 0` collapsing a missing count to 0. -/
def applyStats (r : CountResponses) : DashboardStats :=
  ⟨r.proposalsCount.getD 0, r.grantsCount.getD 0, r.reportsCount.getD 0⟩

/-- The statistics part of `fetchDashboardData` (lines 41-57): if no
authenticated user exists the function returns before any query and the
state keeps its value; otherwise the three counts are queried for the
user's id and stored through `applyStats`. `resp` is the backend's
response as a function of the queried user id. -/
def fetchDashboardStats (authUser : Option String)
    (resp : String → CountResponses) : DashboardStats :=
  match authUser with
  | none => initialStats
  | some uid => applyStats (resp uid)

/-- C3. Dashboard summary statistics: with no authenticated user the three
statistics keep their initial value 0; with a user and exact backend
counts they equal the three filtered row counts; and a missing count maps
to 0 in the corresponding statistic. -/
theorem dashboard_summary_stats (db : Database) (uid : String)
    (resp : String → CountResponses) :
    fetchDashboardStats none resp = initialStats ∧
    fetchDashboardStats (some uid) (fun u => exactCounts db u) =
      ⟨(db.proposals.filter (fun p => p.user_id == uid)).length,
       (db.grants.filter (fun g => g.user_id == uid)).length,
       (db.donor_reports.filter
         (fun r => r.user_id == uid && r.status == "sent")).length⟩ ∧
    ((resp uid).proposalsCount = none →
      (fetchDashboardStats (some uid) resp).proposalsSubmitted = 0) ∧
    ((resp uid).grantsCount = none →
      (fetchDashboardStats (some uid) resp).grantsFound = 0) ∧
    ((resp uid).reportsCount = none →
      (fetchDashboardStats (some uid) resp).donorReportsSent = 0) := by
  refine ⟨rfl, rfl, ?_, ?_, ?_⟩ <;>
    · intro h
      simp [fetchDashboardStats, applyStats, h]

/-- Witness for C3 on a one-row database and an all-missing response. -/
theorem dashboard_summary_stats_witness :
    (fetchDashboardStats (some "u1") (fun _ => ⟨none, none, none⟩)).proposalsSubmitted = 0 :=
  (dashboard_summary_stats ⟨[⟨"u1", "d1"⟩], [], []⟩ "u1"
    (fun _ => ⟨none, none, none⟩)).2.2.1 rfl

/-- One point of the dashboard chart (interface `ChartData`, lines 27-30):
a local date string and the number of proposals created on it. -/
structure ChartEntry where
  date : String
  proposals : Nat
deriving DecidableEq, Repr

/-- One step of the `dailyCounts` accumulation (line 79,
`dailyCounts[date] = (dailyCounts[date] || 0) + 1`): bump the entry of key
`d`, or append a fresh entry `(d, 1)` when the key is absent. The list is
the JS object's string-keyed entries in insertion order. -/
def bumpDate : List (String × Nat) → String → List (String × Nat)
  | [], d => [(d, 1)]
  | (k, n) :: rest, d =>
    if k = d then (k, n + 1) :: rest else (k, n) :: bumpDate rest d

/-- The `forEach` loop of lines 76-80 over the fetched `created_at`
strings: fold `bumpDate` of the local date of each row over the
accumulator. `toLocal` models `new Date(s).toLocaleDateString()`. -/
def dcFold (toLocal : String → String) (acc : List (String × Nat)) :
    List String → List (String × Nat)
  | [] => acc
  | r :: rs => dcFold toLocal (bumpDate acc (toLocal r)) rs

/-- The finished `dailyCounts` object for the rows of the 7-day window. -/
def dailyCounts (toLocal : String → String) (rows : List String) :
    List (String × Nat) :=
  dcFold toLocal [] rows

/-- The `chartDataArray` of lines 82-85: `Object.entries(dailyCounts)`
mapped to chart entries. -/
def chartData (toLocal : String → String) (rows : List String) :
    List ChartEntry :=
  (dailyCounts toLocal rows).map (fun p => ⟨p.1, p.2⟩)

/-- The keys of a counts accumulator. -/
def keysOf (acc : List (String × Nat)) : List String :=
  acc.map Prod.fst

/-- The total of the counts of an accumulator. -/
def sumOf (acc : List (String × Nat)) : Nat :=
  (acc.map Prod.snd).sum

/-- The total count an accumulator stores under one key (summing, so the
definition needs no uniqueness assumption). -/
def countVal (acc : List (String × Nat)) (d : String) : Nat :=
  ((acc.filter (fun p => decide (p.1 = d))).map Prod.snd).sum

/-- Unfolding a counts accumulator by one entry. -/
theorem countVal_cons (k : String) (n : Nat) (rest : List (String × Nat))
    (e : String) :
    countVal ((k, n) :: rest) e = (if k = e then n else 0) + countVal rest e := by
  by_cases hk : k = e <;> simp [countVal, hk]

/-- A key outside the accumulator stores nothing. -/
theorem countVal_eq_zero (k : String) :
    ∀ rest : List (String × Nat), k ∉ keysOf rest → countVal rest k = 0 := by
  intro rest
  induction rest with
  | nil => intro _; rfl
  | cons p r ih =>
      obtain ⟨q, n⟩ := p
      intro hk
      simp only [keysOf, List.map_cons, List.mem_cons, not_or] at hk
      rw [countVal_cons, if_neg (fun h => hk.1 h.symm), ih hk.2]

/-- `bumpDate` raises the total by one. -/
theorem sumOf_bumpDate (acc : List (String × Nat)) (d : String) :
    sumOf (bumpDate acc d) = sumOf acc + 1 := by
  induction acc with
  | nil => simp [bumpDate, sumOf]
  | cons p rest ih =>
      obtain ⟨k, n⟩ := p
      by_cases hk : k = d
      · rw [show bumpDate ((k, n) :: rest) d = (k, n + 1) :: rest from by
          simp [bumpDate, hk]]
        simp [sumOf]
        omega
      · rw [show bumpDate ((k, n) :: rest) d = (k, n) :: bumpDate rest d from by
          simp [bumpDate, hk]]
        simp [sumOf] at ih ⊢
        omega

/-- `bumpDate` keeps the keys when the key is present and appends it
otherwise. -/
theorem keysOf_bumpDate (acc : List (String × Nat)) (d : String) :
    keysOf (bumpDate acc d) =
      if d ∈ keysOf acc then keysOf acc else keysOf acc ++ [d] := by
  induction acc with
  | nil => simp [bumpDate, keysOf]
  | cons p rest ih =>
      obtain ⟨k, n⟩ := p
      by_cases hk : k = d
      · subst hk
        rw [show bumpDate ((k, n) :: rest) k = (k, n + 1) :: rest from by
          simp [bumpDate]]
        simp [keysOf]
      · rw [show bumpDate ((k, n) :: rest) d = (k, n) :: bumpDate rest d from by
          simp [bumpDate, hk]]
        simp only [keysOf, List.map_cons] at ih ⊢
        by_cases hmem : d ∈ List.map Prod.fst rest
        · rw [if_pos hmem] at ih
          rw [ih, if_pos (List.mem_cons.mpr (Or.inr hmem))]
        · rw [if_neg hmem] at ih
          rw [ih, if_neg (fun hc =>
            (List.mem_cons.mp hc).elim (fun h => hk h.symm) hmem)]
          rfl

/-- Membership in the keys after a bump. -/
theorem mem_keysOf_bumpDate (acc : List (String × Nat)) (d e : String) :
    e ∈ keysOf (bumpDate acc d) ↔ e ∈ keysOf acc ∨ e = d := by
  rw [keysOf_bumpDate]
  by_cases hmem : d ∈ keysOf acc
  · rw [if_pos hmem]
    constructor
    · exact Or.inl
    · rintro (h | h)
      · exact h
      · rw [h]; exact hmem
  · rw [if_neg hmem]
    simp [List.mem_append]

/-- `bumpDate` preserves distinctness of the keys. -/
theorem nodup_keysOf_bumpDate (acc : List (String × Nat)) (d : String)
    (h : (keysOf acc).Nodup) : (keysOf (bumpDate acc d)).Nodup := by
  rw [keysOf_bumpDate]
  by_cases hmem : d ∈ keysOf acc
  · rw [if_pos hmem]; exact h
  · rw [if_neg hmem, List.nodup_append]
    refine ⟨h, List.nodup_singleton d, ?_⟩
    intro a ha hd
    rw [List.mem_singleton] at hd
    exact hmem (hd ▸ ha)

/-- `bumpDate` raises the stored count of its key by one and keeps every
other key's count. -/
theorem countVal_bumpDate (acc : List (String × Nat)) (d e : String) :
    countVal (bumpDate acc d) e = countVal acc e + (if e = d then 1 else 0) := by
  induction acc with
  | nil =>
      rw [show bumpDate [] d = [(d, 1)] from rfl, countVal_cons]
      by_cases he : e = d
      · subst he
        simp [countVal]
      · have hde : ¬ d = e := fun h => he h.symm
        simp [countVal, he, hde]
  | cons p rest ih =>
      obtain ⟨k, n⟩ := p
      by_cases hk : k = d
      · subst hk
        rw [show bumpDate ((k, n) :: rest) k = (k, n + 1) :: rest from by
          simp [bumpDate]]
        rw [countVal_cons, countVal_cons]
        by_cases hke : k = e
        · subst hke
          rw [if_pos rfl, if_pos rfl, if_pos rfl]
          omega
        · have hek : ¬ e = k := fun h => hke h.symm
          rw [if_neg hke, if_neg hke, if_neg hek]
          omega
      · rw [show bumpDate ((k, n) :: rest) d = (k, n) :: bumpDate rest d from by
          simp [bumpDate, hk]]
        rw [countVal_cons, countVal_cons, ih]
        exact (Nat.add_assoc _ _ _).symm

/-- The fold raises the total by the number of rows. -/
theorem sumOf_dcFold (t : String → String) (rows : List String) :
    ∀ acc : List (String × Nat),
      sumOf (dcFold t acc rows) = sumOf acc + rows.length := by
  induction rows with
  | nil => intro acc; simp [dcFold]
  | cons r rs ih =>
      intro acc
      rw [dcFold, ih, sumOf_bumpDate, List.length_cons]
      omega

/-- After the fold, the count stored under a date is the count from the
accumulator plus the number of rows mapping to that date. -/
theorem countVal_dcFold (t : String → String) (rows : List String) :
    ∀ (acc : List (String × Nat)) (d : String),
      countVal (dcFold t acc rows) d =
        countVal acc d + (rows.filter (fun r => decide (t r = d))).length := by
  induction rows with
  | nil => intro acc d; simp [dcFold]
  | cons r rs ih =>
      intro acc d
      rw [dcFold, ih, countVal_bumpDate]
      by_cases hr : t r = d
      · rw [List.filter_cons_of_pos (by simp [hr]), List.length_cons,
          if_pos hr.symm]
        omega
      · rw [List.filter_cons_of_neg (by simp [hr]),
          if_neg (fun h => hr h.symm)]
        omega

/-- After the fold, the keys are those of the accumulator plus the local
dates of the rows. -/
theorem mem_keysOf_dcFold (t : String → String) (rows : List String) :
    ∀ (acc : List (String × Nat)) (d : String),
      d ∈ keysOf (dcFold t acc rows) ↔ d ∈ keysOf acc ∨ d ∈ rows.map t := by
  induction rows with
  | nil => intro acc d; simp [dcFold]
  | cons r rs ih =>
      intro acc d
      rw [dcFold, ih, mem_keysOf_bumpDate, List.map_cons, List.mem_cons]
      tauto

/-- The fold preserves distinctness of the keys. -/
theorem nodup_keysOf_dcFold (t : String → String) (rows : List String) :
    ∀ acc : List (String × Nat),
      (keysOf acc).Nodup → (keysOf (dcFold t acc rows)).Nodup := by
  induction rows with
  | nil => intro acc h; exact h
  | cons r rs ih =>
      intro acc h
      exact ih (bumpDate acc (t r)) (nodup_keysOf_bumpDate acc (t r) h)

/-- When the keys are distinct, each stored pair's number is the count the
accumulator holds under its key. -/
theorem countVal_of_mem :
    ∀ acc : List (String × Nat), (keysOf acc).Nodup →
      ∀ p ∈ acc, countVal acc p.1 = p.2 := by
  intro acc
  induction acc with
  | nil => intro _ p hp; cases hp
  | cons q rest ih =>
      obtain ⟨k, n⟩ := q
      intro h p hp
      simp only [keysOf, List.map_cons, List.nodup_cons] at h
      rcases List.mem_cons.mp hp with hq | hq
      · subst hq
        show countVal ((k, n) :: rest) k = n
        rw [countVal_cons, if_pos rfl, countVal_eq_zero k rest h.1]
        omega
      · have hp1 : p.1 ∈ keysOf rest := List.mem_map_of_mem Prod.fst hq
        have hkp : ¬ k = p.1 := fun hkk => h.1 (hkk ▸ hp1)
        rw [countVal_cons, if_neg hkp, Nat.zero_add]
        exact ih h.2 p hq

/-- Dates of the chart are the keys of the counts object. -/
theorem chartData_dates (t : String → String) (rows : List String) :
    (chartData t rows).map ChartEntry.date = keysOf (dailyCounts t rows) := by
  simp [chartData, keysOf, List.map_map]

/-- Counts of the chart are the values of the counts object. -/
theorem chartData_counts (t : String → String) (rows : List String) :
    (chartData t rows).map ChartEntry.proposals =
      (dailyCounts t rows).map Prod.snd := by
  simp [chartData, List.map_map]

/-- C4. Dashboard chart aggregation: the chart has one entry per distinct
local date of the window's rows (the dates are distinct and are exactly
the local dates of the rows), each entry's count is the number of rows
whose local date is the entry's date, and the counts sum to the number of
rows in the window. -/
theorem dashboard_chart_aggregation (t : String → String) (rows : List String) :
    ((chartData t rows).map ChartEntry.date).Nodup ∧
    (∀ d, d ∈ (chartData t rows).map ChartEntry.date ↔ d ∈ rows.map t) ∧
    (∀ e ∈ chartData t rows,
      e.proposals = (rows.filter (fun r => decide (t r = e.date))).length) ∧
    ((chartData t rows).map ChartEntry.proposals).sum = rows.length := by
  refine ⟨?_, ?_, ?_, ?_⟩
  · rw [chartData_dates]
    exact nodup_keysOf_dcFold t rows [] (by simp [keysOf])
  · intro d
    rw [chartData_dates, dailyCounts, mem_keysOf_dcFold]
    simp [keysOf]
  · intro e he
    obtain ⟨p, hp, hpe⟩ := List.mem_map.mp he
    have hnd : (keysOf (dailyCounts t rows)).Nodup :=
      nodup_keysOf_dcFold t rows [] (by simp [keysOf])
    have hcv := countVal_of_mem (dailyCounts t rows) hnd p hp
    have hfold := countVal_dcFold t rows [] p.1
    rw [dailyCounts] at hcv
    rw [hcv] at hfold
    have h0 : countVal [] p.1 = 0 := rfl
    rw [h0] at hfold
    subst hpe
    simpa using hfold
  · rw [chartData_counts]
    have := sumOf_dcFold t rows []
    simp [sumOf] at this
    exact this

/-- Witness for C4 on three rows over two dates: the entry of the repeated
date counts two rows. -/
theorem dashboard_chart_aggregation_witness :
    (2 : Nat) = (["a", "b", "a"].filter
      (fun r => decide ((fun s => s) r = "a"))).length :=
  (dashboard_chart_aggregation (fun s => s) ["a", "b", "a"]).2.2.1
    ⟨"a", 2⟩ (by decide)

/-- One operation against the hosted table API: a select, insert or delete
on a named table. -/
inductive TableOp
  | selectFrom (table : String)
  | insertInto (table : String)
  | deleteFrom (table : String)
deriving DecidableEq, Repr

/-- The table an operation targets. -/
def TableOp.table : TableOp → String
  | .selectFrom t => t
  | .insertInto t => t
  | .deleteFrom t => t

/-- Whether an operation writes (insert or delete). -/
def TableOp.isWrite : TableOp → Bool
  | .selectFrom _ => false
  | .insertInto _ => true
  | .deleteFrom _ => true

/-- The toasts `handleSaveGrant` can show (lines 350-355, 377-380,
394-397, 401-405). -/
inductive SaveToast
  | authRequired
  | grantRemoved
  | grantSaved
  | saveFailed
deriving DecidableEq, Repr

/-- The outcome of one `handleSaveGrant` call: the new saved-grant-id set,
the toasts shown, and the backend table operations issued. -/
structure SaveResult where
  saved : Finset String
  toasts : List SaveToast
  backendOps : List TableOp
deriving DecidableEq

/-- Embedding of `handleSaveGrant` (src/components/DashboardLayout.tsx,
lines 348-407). With no user it only toasts; otherwise it issues a delete
when the grant is saved and an insert when it is not, and updates the set
only when the issued call succeeds (`backendOk`); a thrown backend error
is caught and toasts, leaving the set as it was. -/
def handleSaveGrant (user : Option String) (backendOk : Bool)
    (saved : Finset String) (grantId : String) : SaveResult :=
  match user with
  | none => ⟨saved, [.authRequired], []⟩
  | some _ =>
    if grantId ∈ saved then
      if backendOk then
        ⟨saved.erase grantId, [.grantRemoved], [.deleteFrom "saved_grants"]⟩
      else
        ⟨saved, [.saveFailed], [.deleteFrom "saved_grants"]⟩
    else
      if backendOk then
        ⟨insert grantId saved, [.grantSaved], [.insertInto "saved_grants"]⟩
      else
        ⟨saved, [.saveFailed], [.insertInto "saved_grants"]⟩

/-- C6. Save toggle round-trip: a successful call toggles exactly the
given grant id's membership in the saved set — afterwards the id is in the
set iff it was not before, every other id's membership is unchanged — and
two consecutive successful calls with the same id restore the original
set. -/
theorem save_toggle_roundtrip (uid : String) (saved : Finset String)
    (gid : String) :
    (gid ∈ (handleSaveGrant (some uid) true saved gid).saved ↔ gid ∉ saved) ∧
    (∀ g, g ≠ gid →
      (g ∈ (handleSaveGrant (some uid) true saved gid).saved ↔ g ∈ saved)) ∧
    (handleSaveGrant (some uid) true
      (handleSaveGrant (some uid) true saved gid).saved gid).saved = saved := by
  by_cases hm : gid ∈ saved
  · refine ⟨?_, ?_, ?_⟩
    · simp [handleSaveGrant, hm]
    · intro g hg
      simp [handleSaveGrant, hm, Finset.mem_erase, hg]
    · have h1 : (handleSaveGrant (some uid) true saved gid).saved =
        saved.erase gid := by simp [handleSaveGrant, hm]
      rw [h1]
      have h2 : gid ∉ saved.erase gid := Finset.not_mem_erase gid saved
      simp [handleSaveGrant, h2]
      exact Finset.insert_erase hm
  · refine ⟨?_, ?_, ?_⟩
    · simp [handleSaveGrant, hm]
    · intro g hg
      simp [handleSaveGrant, hm, Finset.mem_insert, hg]
    · have h1 : (handleSaveGrant (some uid) true saved gid).saved =
        insert gid saved := by simp [handleSaveGrant, hm]
      rw [h1]
      have h2 : gid ∈ insert gid saved := Finset.mem_insert_self gid saved
      simp [handleSaveGrant, h2]
      exact hm

/-- Witness for C6: saving then unsaving a grant on a concrete set
restores it. -/
theorem save_toggle_roundtrip_witness :
    ("g1" ∈ (handleSaveGrant (some "u1") true {"g1"} "g2").saved ↔
      "g1" ∈ ({"g1"} : Finset String)) ∧
    (handleSaveGrant (some "u1") true
      (handleSaveGrant (some "u1") true {"g1"} "g2").saved "g2").saved = {"g1"} :=
  ⟨(save_toggle_roundtrip "u1" {"g1"} "g2").2.1 "g1" (by decide),
   (save_toggle_roundtrip "u1" {"g1"} "g2").2.2⟩

/-- C9. Save atomicity on failure: with no signed-in user, or when the
issued backend insert or delete fails, the saved set is unchanged and the
only effect is one error toast. -/
theorem save_atomic_on_failure (uid gid : String) (saved : Finset String)
    (ok : Bool) :
    ((handleSaveGrant none ok saved gid).saved = saved ∧
      (handleSaveGrant none ok saved gid).toasts = [.authRequired]) ∧
    ((handleSaveGrant (some uid) false saved gid).saved = saved ∧
      (handleSaveGrant (some uid) false saved gid).toasts = [.saveFailed]) := by
  refine ⟨⟨rfl, rfl⟩, ?_⟩
  by_cases hm : gid ∈ saved <;> simp [handleSaveGrant, hm]

/-- The outcome of `supabase.auth.signUp` (SignupForm.tsx lines 34-37):
an error with a message, or success with `authData.user` possibly null. -/
inductive AuthResult
  | authErr (msg : String)
  | authOk (user : Option String)
deriving DecidableEq, Repr

/-- The outcome of the profile-row insert into `users` (lines 46-54). -/
inductive InsertOutcome
  | insErr
  | insOk
deriving DecidableEq, Repr

/-- The observable events of one `handleSubmit` run of the signup form:
the auth sign-up call, the profile insert call, an error display, and the
`onSuccess` callback. -/
inductive SignupEvent
  | authSignUpCall
  | profileInsertCall
  | showError (msg : String)
  | successCallback
deriving DecidableEq, Repr

/-- Embedding of `handleSubmit` of src/components/auth/SignupForm.tsx
(lines 27-68) as its event trace: the auth sign-up always runs first; an
auth error displays its message and returns; with a created user the
profile insert runs, an insert error displays the fixed message and
returns, and otherwise `onSuccess` is called. -/
def handleSubmit (auth : AuthResult) (ins : InsertOutcome) : List SignupEvent :=
  .authSignUpCall ::
    (match auth with
     | .authErr m => [.showError m]
     | .authOk none => []
     | .authOk (some _) =>
       .profileInsertCall ::
         (match ins with
          | .insErr => [.showError "Failed to create user profile"]
          | .insOk => [.successCallback]))

/-- C7. Signup ordering and error handling: an auth failure displays that
error and never reaches the profile insert; the profile insert happens
only when the auth user was created (and always after the auth call, which
heads every trace); and `onSuccess` runs only when both the auth sign-up
and the insert succeed. -/
theorem signup_ordering_and_errors (m : String) (auth : AuthResult)
    (ins : InsertOutcome) :
    SignupEvent.showError m ∈ handleSubmit (.authErr m) ins ∧
    SignupEvent.profileInsertCall ∉ handleSubmit (.authErr m) ins ∧
    (handleSubmit auth ins).head? = some .authSignUpCall ∧
    (SignupEvent.profileInsertCall ∈ handleSubmit auth ins →
      ∃ u, auth = .authOk (some u)) ∧
    (SignupEvent.successCallback ∈ handleSubmit auth ins →
      (∃ u, auth = .authOk (some u)) ∧ ins = .insOk) := by
  refine ⟨by simp [handleSubmit], by simp [handleSubmit], ?_, ?_, ?_⟩
  · cases auth <;> rfl
  · intro hmem
    cases auth with
    | authErr m2 => simp [handleSubmit] at hmem
    | authOk u =>
        cases u with
        | none => simp [handleSubmit] at hmem
        | some v => exact ⟨v, rfl⟩
  · intro hmem
    cases auth with
    | authErr m2 => simp [handleSubmit] at hmem
    | authOk u =>
        cases u with
        | none => simp [handleSubmit] at hmem
        | some v =>
            cases ins with
            | insErr => simp [handleSubmit] at hmem
            | insOk => exact ⟨⟨v, rfl⟩, rfl⟩

/-- Witness for C7: a successful run calls `onSuccess`, and the theorem
recovers that both stages succeeded. -/
theorem signup_ordering_and_errors_witness :
    (∃ u, AuthResult.authOk (some "uid-9") = AuthResult.authOk (some u)) ∧
    InsertOutcome.insOk = InsertOutcome.insOk :=
  (signup_ordering_and_errors "boom" (.authOk (some "uid-9")) .insOk).2.2.2.2
    (by decide)

/-- The table operations `fetchDashboardData` issues
(src/components/Dashboard.tsx lines 47-74): three counted selects, the
latest-proposals select, and the chart-window select. -/
def dashboardOps : List TableOp :=
  [.selectFrom "proposals", .selectFrom "grants", .selectFrom "donor_reports",
   .selectFrom "proposals", .selectFrom "proposals"]

/-- The table operation `fetchUserData` of the dashboard layout issues
(src/components/DashboardLayout.tsx lines 46-50): the profile select. -/
def dashboardLayoutOps : List TableOp :=
  [.selectFrom "users"]

/-- The table operations `FundBridge` issues (DashboardLayout.tsx, second
module, lines 287-407): the grants select, the saved-grants select, and
the save/unsave delete and insert of `handleSaveGrant`. -/
def fundBridgeOps : List TableOp :=
  [.selectFrom "grants", .selectFrom "saved_grants",
   .deleteFrom "saved_grants", .insertInto "saved_grants"]

/-- The table operation the signup form issues
(src/components/auth/SignupForm.tsx lines 46-54): the profile insert. -/
def signupFormOps : List TableOp :=
  [.insertInto "users"]

/-- Modelled from the spec: `LoginForm.tsx` is referenced by `AuthPage`
but its source is not in the repository snapshot; per the spec the login
form only delegates sign-in to the hosted backend's auth service, so it
issues no table operations. -/
def loginFormOps : List TableOp :=
  []

/-- Every hosted-table operation the application issues. -/
def appTableOps : List TableOp :=
  dashboardOps ++ dashboardLayoutOps ++ fundBridgeOps ++ signupFormOps ++
    loginFormOps

/-- The five tables of the hosted backend the spec names. -/
def allowedTables : List String :=
  ["users", "proposals", "grants", "saved_grants", "donor_reports"]

/-- C8. Backend table scope: every operation targets one of the five named
tables; every write targets `users` or `saved_grants`; the only write to
`users` is the signup profile insert; and the only writes to
`saved_grants` are the save/unsave delete and insert of `FundBridge`. -/
theorem backend_table_scope :
    (∀ op ∈ appTableOps, op.table ∈ allowedTables) ∧
    (∀ op ∈ appTableOps, op.isWrite = true →
      op.table = "users" ∨ op.table = "saved_grants") ∧
    (appTableOps.filter (fun op => op.isWrite && op.table == "users") =
      signupFormOps) ∧
    (appTableOps.filter (fun op => op.isWrite && op.table == "saved_grants") =
      [.deleteFrom "saved_grants", .insertInto "saved_grants"]) := by
  refine ⟨?_, ?_, by decide, by decide⟩
  · intro op hop
    fin_cases hop <;> decide
  · intro op hop
    fin_cases hop <;> decide

/-- Witness for C8 at the signup insert: it targets an allowed table and,
being a write, one of the two writable tables. -/
theorem backend_table_scope_witness :
    (TableOp.insertInto "users").table ∈ allowedTables ∧
    ((TableOp.insertInto "users").table = "users" ∨
      (TableOp.insertInto "users").table = "saved_grants") :=
  ⟨backend_table_scope.1 (.insertInto "users") (by decide),
   backend_table_scope.2.1 (.insertInto "users") (by decide) (by decide)⟩

end ImpactFlow
